import Mathlib

/-!
Shallow embedding of the `environ` Go package (environ.go, fake.go).

The package walks the fields of a struct, reads the `environ`
struct tag of each field, looks up the key named by the tag in an
environment abstraction, and converts the looked-up string to the
type of the field.  Struct values are
modelled as ordered lists of fields; a field carries its name, the raw
value of its `environ` tag (the result of `reflect.StructTag.Get`,
which is the empty string when the field has no annotation), and a
typed value.  Pointer-to-struct fields are modelled by the `vPtr` /
`vPtrNil` constructors.  Go `error` results are modelled as
`Option String` (`none` = nil error); `log.Fatalf` and `panic`, which
terminate the process, are modelled as the `Except.error` branch of
the result of the walk.
-/

namespace Environ

/-- `LookupEnvironmentFunc` from environ.go: given a key, the value and
whether the key was present. -/
abbrev LookupEnvironmentFunc : Type := String → String × Bool

/-- `StateVar` from environ.go: a processed struct tag. -/
structure StateVar where
  EnvironmentVariable : String
  Redact : Bool
  AnyValTrue : Bool

/-- Helper for `stringsSplitComma`: the accumulator holds the
characters of the current token in reverse. -/
def splitCommaAux : List Char → List Char → List String
  | [], acc => [String.mk acc.reverse]
  | c :: rest, acc =>
    if c = ',' then String.mk acc.reverse :: splitCommaAux rest []
    else splitCommaAux rest (c :: acc)

/-- Go `strings.Split(s, ",")`: the substrings of `s` between commas.
On the empty string it returns `[""]`. -/
def stringsSplitComma (s : String) : List String :=
  splitCommaAux s.toList []

/-- `parseStateVar` from environ.go, applied to the raw value of the
`environ` tag (the result of `t.Get(structFieldTagKey)`, which is `""`
for a field with no annotation).  Splits on commas; the first part is
the key, the remaining parts set the option flags. -/
def parseStateVar (tagVal : String) : StateVar :=
  let parts := stringsSplitComma tagVal
  (parts.drop 1).foldl
    (fun sv v =>
      if v = "redact" then { sv with Redact := true }
      else if v = "anyvaltrue" then { sv with AnyValTrue := true }
      else sv)
    { EnvironmentVariable := parts.headD ""
      Redact := false
      AnyValTrue := false }

/-- Go `strconv.ParseBool`: the value it returns paired with the error
(`none` = nil).  On failure it returns `false` together with the error. -/
def parseBoolGo (s : String) : Bool × Option String :=
  if s = "1" ∨ s = "t" ∨ s = "T" ∨ s = "TRUE" ∨ s = "true" ∨ s = "True" then
    (true, none)
  else if s = "0" ∨ s = "f" ∨ s = "F" ∨ s = "FALSE" ∨ s = "false" ∨ s = "False" then
    (false, none)
  else
    (false, some ("strconv.ParseBool: parsing " ++ s ++ ": invalid syntax"))

/-- Base-10 digit run to a number; `none` when empty or a non-digit occurs. -/
def parseDigits : List Char → Option Nat
  | [] => none
  | cs => cs.foldlM (fun n c => if c.isDigit then some (n * 10 + (c.toNat - 48)) else none) 0

def int64Max : Int := 9223372036854775807

def int64Min : Int := -9223372036854775808

/-- Go `strconv.Atoi`: optional sign, then base-10 digits; the value it
returns paired with the error.  On a syntax error it returns `0`; on
overflow the value is clamped to the 64-bit range. -/
def atoi (s : String) : Int × Option String :=
  let cs := s.toList
  let signDigits : Int × List Char :=
    match cs with
    | '-' :: rest => (-1, rest)
    | '+' :: rest => (1, rest)
    | _ => (1, cs)
  match parseDigits signDigits.2 with
  | none => (0, some ("strconv.Atoi: parsing " ++ s ++ ": invalid syntax"))
  | some n =>
    let v : Int := signDigits.1 * (n : Int)
    if v > int64Max then (int64Max, some ("strconv.Atoi: parsing " ++ s ++ ": value out of range"))
    else if v < int64Min then (int64Min, some ("strconv.Atoi: parsing " ++ s ++ ": value out of range"))
    else (v, none)

mutual

/-- A typed field value: the field kinds UnmarshalEnvironment dispatches
on (bool, string, []string, int) plus pointer-to-struct fields
(`vPtrNil` = nil pointer, `vPtr` = pointer to a struct value). -/
inductive Value where
| vBool : Bool → Value
| vString : String → Value
| vStringSlice : List String → Value
| vInt : Int → Value
| vPtrNil : Value
| vPtr : Fields → Value

/-- One struct field: name, raw `environ` tag value, typed value. -/
inductive Field where
| mk : String → String → Value → Field

/-- The fields of a struct value, in declaration order. -/
inductive Fields where
| nil : Fields
| cons : Field → Fields → Fields

end

/-- The message of the `Decode of nil` error returned for a nil pointer. -/
def decodeOfNilMsg : String := "Decode of nil"

/-- The message of the `log.Fatalf` call in the default branch of the
type switch (a pointer-kind field whose key is present reaches it). -/
def unimplementedTypeMsg : String := "unimplemented type"

mutual

/-- The body of the field loop of UnmarshalEnvironment for one field,
from environ.go lines 93-142.  `err` is the value of the single `err`
variable of the loop before this iteration; the result carries the updated
field and the value of `err` after the iteration.  `Except.error`
models process termination by `log.Fatalf`.  For a pointer field the
loop first recurses (`UnmarshalEnvironment(lookupenv, sv.Field(i).Interface())`),
discarding the error result of the recursive call: for a nil pointer the
recursive call returns the decode-of-nil error and changes nothing;
for a non-nil pointer it runs the field loop on the pointed-to struct
with a fresh `err` variable. -/
def unmarshalField (lookupenv : LookupEnvironmentFunc) (err : Option String) (f : Field) :
    Except String (Field × Option String) :=
  match f with
  | .mk name tag v =>
    let stv := parseStateVar tag
    let look := lookupenv stv.EnvironmentVariable
    let eval := look.1
    let isset := look.2
    match v with
    | .vBool _ =>
      if isset then
        if stv.AnyValTrue then .ok (.mk name tag (.vBool true), err)
        else if eval.length = 0 then .ok (.mk name tag (.vBool false), err)
        else
          let pb := parseBoolGo eval
          .ok (.mk name tag (.vBool pb.1), pb.2)
      else .ok (f, err)
    | .vString _ =>
      if isset then .ok (.mk name tag (.vString eval), err)
      else .ok (f, err)
    | .vStringSlice _ =>
      if isset then
        if eval.length ≠ 0 then .ok (.mk name tag (.vStringSlice (stringsSplitComma eval)), err)
        else .ok (f, err)
      else .ok (f, err)
    | .vInt _ =>
      if isset then
        if eval.length = 0 then .ok (.mk name tag (.vInt 0), err)
        else
          let pr := atoi eval
          .ok (.mk name tag (.vInt pr.1), pr.2)
      else .ok (f, err)
    | .vPtrNil =>
      -- recursive call on the nil pointer returns the decode-of-nil
      -- error, which is discarded; then the type switch: pointer kind
      -- matches no case, so a present key reaches log.Fatalf
      if isset then .error unimplementedTypeMsg
      else .ok (f, err)
    | .vPtr fs =>
      match unmarshalFields lookupenv none fs with
      | .error e => .error e
      | .ok (fs2, _) =>
        if isset then .error unimplementedTypeMsg
        else .ok (.mk name tag (.vPtr fs2), err)

/-- The field loop of UnmarshalEnvironment over the remaining fields,
threading the single `err` variable left to right. -/
def unmarshalFields (lookupenv : LookupEnvironmentFunc) (err : Option String) (fs : Fields) :
    Except String (Fields × Option String) :=
  match fs with
  | .nil => .ok (.nil, err)
  | .cons f rest =>
    match unmarshalField lookupenv err f with
    | .error e => .error e
    | .ok (f2, err2) =>
      match unmarshalFields lookupenv err2 rest with
      | .error e => .error e
      | .ok (rest2, err3) => .ok (.cons f2 rest2, err3)

end

/-- `UnmarshalEnvironment` from environ.go, as called on a pointer
(`none` = nil pointer): for a nil pointer it returns the decode-of-nil
error; otherwise it runs the field loop with `err` starting at nil and
returns the updated struct and the final value of `err`. -/
def UnmarshalEnvironment (lookupenv : LookupEnvironmentFunc) (into : Option Fields) :
    Except String (Option Fields × Option String) :=
  match into with
  | none => .ok (none, some decodeOfNilMsg)
  | some fs =>
    match unmarshalFields lookupenv none fs with
    | .error e => .error e
    | .ok (fs2, err) => .ok (some fs2, err)

/-- `FakeEmptyEnvironment` from fake.go: reports every key absent. -/
def FakeEmptyEnvironment : LookupEnvironmentFunc := fun _ => ("", false)

mutual

/-- The `%v` rendering by the Go `fmt` package of a field value: booleans as
`true`/`false`, strings verbatim, string slices space-separated in
square brackets, ints in decimal, a nil pointer as `<nil>`, and a
pointer to a struct as `&` followed by the brace-wrapped
space-separated field values of the struct. -/
def formatValue : Value → String
  | .vBool b => if b then "true" else "false"
  | .vString s => s
  | .vStringSlice xs => "[" ++ String.intercalate " " xs ++ "]"
  | .vInt n => toString n
  | .vPtrNil => "<nil>"
  | .vPtr fs => "&\x7b" ++ String.intercalate " " (formatFieldValues fs) ++ "\x7d"

/-- The `%v` renderings of the field values of a struct, in order. -/
def formatFieldValues : Fields → List String
  | .nil => []
  | .cons (.mk _ _ v) rest => formatValue v :: formatFieldValues rest

end

/-- The body of the loop of ToString for one field, from environ.go lines
151-168: parse the tag; if the `redact` option is set and the field is
a string, mask a non-empty value as eight asterisks and an empty value
as the empty string; render everything else with `%v`; emit
`Name:Value` and a trailing space. -/
def renderField (f : Field) : String :=
  match f with
  | .mk name tag v =>
    let stv := parseStateVar tag
    let valStr :=
      if stv.Redact then
        match v with
        | .vString s => if s.length > 0 then "********" else ""
        | w => formatValue w
      else formatValue v
    name ++ ":" ++ valStr ++ " "

/-- The loop of ToString: the concatenation of the per-field renderings. -/
def renderFields : Fields → String
  | .nil => ""
  | .cons f rest => renderField f ++ renderFields rest

/-- `ToString` from environ.go: the redacted single-line representation
of a struct value. -/
def ToString (es : Fields) : String :=
  "\x7b " ++ renderFields es ++ "\x7d"

/-- A value of one of the four leaf kinds the type switch converts
(bool, string, []string, int) — not a pointer. -/
def isLeafValue : Value → Bool
  | .vPtrNil => false
  | .vPtr _ => false
  | _ => true

mutual

/-- The present key of this field (and of every field nested below it)
converts successfully: for a bool field without `anyvaltrue` holding a
non-empty value, `strconv.ParseBool` succeeds; for an int field
holding a non-empty value, `strconv.Atoi` succeeds; no pointer-kind
field has a present key (which would reach `log.Fatalf`). -/
def fieldWalkOk (lk : LookupEnvironmentFunc) : Field → Bool
  | .mk _ tag v =>
    let stv := parseStateVar tag
    let look := lk stv.EnvironmentVariable
    match v with
    | .vBool _ =>
      !look.2 || stv.AnyValTrue || (look.1.length == 0) || (parseBoolGo look.1).2.isNone
    | .vString _ => true
    | .vStringSlice _ => true
    | .vInt _ => !look.2 || (look.1.length == 0) || (atoi look.1).2.isNone
    | .vPtrNil => !look.2
    | .vPtr fs => !look.2 && fieldsWalkOk lk fs

/-- `fieldWalkOk` for every field of a struct, in order. -/
def fieldsWalkOk (lk : LookupEnvironmentFunc) : Fields → Bool
  | .nil => true
  | .cons f rest => fieldWalkOk lk f && fieldsWalkOk lk rest

end

/- Helper lemmas -/

mutual

theorem unmarshalField_absent (lk : LookupEnvironmentFunc)
    (habs : ∀ k, (lk k).2 = false) (err : Option String) (f : Field) :
    unmarshalField lk err f = .ok (f, err) := by
  cases f with
  | mk name tag v =>
    cases v with
    | vBool b => simp [unmarshalField, habs]
    | vString s => simp [unmarshalField, habs]
    | vStringSlice xs => simp [unmarshalField, habs]
    | vInt n => simp [unmarshalField, habs]
    | vPtrNil => simp [unmarshalField, habs]
    | vPtr fs =>
      have ih := unmarshalFields_absent lk habs none fs
      simp [unmarshalField, habs, ih]

theorem unmarshalFields_absent (lk : LookupEnvironmentFunc)
    (habs : ∀ k, (lk k).2 = false) (err : Option String) (fs : Fields) :
    unmarshalFields lk err fs = .ok (fs, err) := by
  cases fs with
  | nil => simp [unmarshalFields]
  | cons f rest =>
    have ih1 := unmarshalField_absent lk habs err f
    have ih2 := unmarshalFields_absent lk habs err rest
    simp [unmarshalFields, ih1, ih2]

end

mutual

theorem unmarshalField_walkOk (lk : LookupEnvironmentFunc) (f : Field)
    (h : fieldWalkOk lk f = true) :
    ∃ f2, unmarshalField lk none f = .ok (f2, none) := by
  cases f with
  | mk name tag v =>
    cases v with
    | vBool b =>
      simp [fieldWalkOk] at h
      cases hlk : (lk (parseStateVar tag).EnvironmentVariable).2 with
      | false => exact ⟨.mk name tag (.vBool b), by simp [unmarshalField, hlk]⟩
      | true =>
        by_cases ha : (parseStateVar tag).AnyValTrue = true
        · exact ⟨.mk name tag (.vBool true), by simp [unmarshalField, hlk, ha]⟩
        · by_cases hl : (lk (parseStateVar tag).EnvironmentVariable).1.length = 0
          · exact ⟨.mk name tag (.vBool false), by simp [unmarshalField, hlk, ha, hl]⟩
          · have hp : (parseBoolGo (lk (parseStateVar tag).EnvironmentVariable).1).2 = none := by
              rcases h with ((h | h) | h) | h
              · exact absurd h (by simp [hlk])
              · exact absurd h ha
              · exact absurd h hl
              · exact h
            exact ⟨.mk name tag (.vBool (parseBoolGo (lk (parseStateVar tag).EnvironmentVariable).1).1),
              by simp [unmarshalField, hlk, ha, hl, hp]⟩
    | vString s =>
      cases hlk : (lk (parseStateVar tag).EnvironmentVariable).2 with
      | false => exact ⟨.mk name tag (.vString s), by simp [unmarshalField, hlk]⟩
      | true => exact ⟨.mk name tag (.vString (lk (parseStateVar tag).EnvironmentVariable).1),
          by simp [unmarshalField, hlk]⟩
    | vStringSlice xs =>
      cases hlk : (lk (parseStateVar tag).EnvironmentVariable).2 with
      | false => exact ⟨.mk name tag (.vStringSlice xs), by simp [unmarshalField, hlk]⟩
      | true =>
        by_cases hl : (lk (parseStateVar tag).EnvironmentVariable).1.length = 0
        · exact ⟨.mk name tag (.vStringSlice xs), by simp [unmarshalField, hlk, hl]⟩
        · exact ⟨.mk name tag
            (.vStringSlice (stringsSplitComma (lk (parseStateVar tag).EnvironmentVariable).1)),
            by simp [unmarshalField, hlk, hl]⟩
    | vInt n =>
      simp [fieldWalkOk] at h
      cases hlk : (lk (parseStateVar tag).EnvironmentVariable).2 with
      | false => exact ⟨.mk name tag (.vInt n), by simp [unmarshalField, hlk]⟩
      | true =>
        by_cases hl : (lk (parseStateVar tag).EnvironmentVariable).1.length = 0
        · exact ⟨.mk name tag (.vInt 0), by simp [unmarshalField, hlk, hl]⟩
        · have hp : (atoi (lk (parseStateVar tag).EnvironmentVariable).1).2 = none := by
            rcases h with (h | h) | h
            · exact absurd h (by simp [hlk])
            · exact absurd h hl
            · exact h
          exact ⟨.mk name tag (.vInt (atoi (lk (parseStateVar tag).EnvironmentVariable).1).1),
            by simp [unmarshalField, hlk, hl, hp]⟩
    | vPtrNil =>
      simp [fieldWalkOk] at h
      exact ⟨.mk name tag .vPtrNil, by simp [unmarshalField, h]⟩
    | vPtr fs =>
      simp [fieldWalkOk] at h
      obtain ⟨h1, h2⟩ := h
      obtain ⟨fs2, hfs⟩ := unmarshalFields_walkOk lk fs h2
      exact ⟨.mk name tag (.vPtr fs2), by simp [unmarshalField, h1, hfs]⟩

theorem unmarshalFields_walkOk (lk : LookupEnvironmentFunc) (fs : Fields)
    (h : fieldsWalkOk lk fs = true) :
    ∃ fs2, unmarshalFields lk none fs = .ok (fs2, none) := by
  cases fs with
  | nil => exact ⟨.nil, by simp [unmarshalFields]⟩
  | cons f rest =>
    simp [fieldsWalkOk] at h
    obtain ⟨h1, h2⟩ := h
    obtain ⟨f2, hf⟩ := unmarshalField_walkOk lk f h1
    obtain ⟨rest2, hr⟩ := unmarshalFields_walkOk lk rest h2
    exact ⟨.cons f2 rest2, by simp [unmarshalFields, hf, hr]⟩

end

/- Claim theorems -/

/-- C1: evaluation at the failing inputs.  A bool field preset to
`true` whose present key holds the bad literal `xtrue` is overwritten
with `false`, and an int field preset to `7` whose present key holds
the non-numeric text `abc` is overwritten with `0`: on a failed
conversion the code assigns the zero result of the failed parse
(`SetBool(xb)` / `SetInt(int64(xi))` run unconditionally after the
parse), so the field is NOT left at its pre-call value, contrary to
the claim and to the doc comment of UnmarshalEnvironment itself. -/
theorem failedConversionAssignsParseZeroValue :
    UnmarshalEnvironment (fun k => if k = "GHI" then ("xtrue", true) else ("", false))
      (some (.cons (.mk "Ghi" "GHI" (.vBool true)) .nil)) =
      .ok (some (.cons (.mk "Ghi" "GHI" (.vBool false)) .nil),
        some "strconv.ParseBool: parsing xtrue: invalid syntax") ∧
    UnmarshalEnvironment (fun k => if k = "MNO" then ("abc", true) else ("", false))
      (some (.cons (.mk "Mno" "MNO" (.vInt 7)) .nil)) =
      .ok (some (.cons (.mk "Mno" "MNO" (.vInt 0)) .nil),
        some "strconv.Atoi: parsing abc: invalid syntax") :=
  ⟨rfl, rfl⟩

/-- C4: evaluation of the three boolean cases (no `anyvaltrue`) at a
field preset to a non-zero value.  Presence with an empty value sets
`false`; presence with the valid literal `true` sets `true`; presence
with the invalid literal `xtrue` sets the field to `false` — the zero
result of the failed `strconv.ParseBool` — rather than keeping the
pre-call value `true`, and the error is recorded.  The third conjunct
contradicts the "field keeps its pre-call value" part of the claim
(and the doc comment of UnmarshalEnvironment). -/
theorem boolFieldBadLiteralEvaluation :
    UnmarshalEnvironment (fun k => if k = "GHI" then ("", true) else ("", false))
      (some (.cons (.mk "Ghi" "GHI" (.vBool true)) .nil)) =
      .ok (some (.cons (.mk "Ghi" "GHI" (.vBool false)) .nil), none) ∧
    UnmarshalEnvironment (fun k => if k = "GHI" then ("true", true) else ("", false))
      (some (.cons (.mk "Ghi" "GHI" (.vBool false)) .nil)) =
      .ok (some (.cons (.mk "Ghi" "GHI" (.vBool true)) .nil), none) ∧
    UnmarshalEnvironment (fun k => if k = "GHI" then ("xtrue", true) else ("", false))
      (some (.cons (.mk "Ghi" "GHI" (.vBool true)) .nil)) =
      .ok (some (.cons (.mk "Ghi" "GHI" (.vBool false)) .nil),
        some "strconv.ParseBool: parsing xtrue: invalid syntax") ∧
    Value.vBool false ≠ Value.vBool true :=
  ⟨rfl, rfl, rfl, fun h => by injection h with hb; exact Bool.noConfusion hb⟩

/-- C5: evaluation of the three integer cases at a field preset to the
non-zero value `7`.  Presence with an empty value assigns `0`;
presence with `-1234` assigns `-1234`; presence with the non-numeric
text `abc` assigns `0` — the zero result of the failed `strconv.Atoi`
— rather than keeping the pre-call value `7`, and the error is
recorded.  The third conjunct contradicts the "field keeps its
pre-call value" part of the claim (and the doc comment of
UnmarshalEnvironment). -/
theorem intFieldBadLiteralEvaluation :
    UnmarshalEnvironment (fun k => if k = "MNO" then ("", true) else ("", false))
      (some (.cons (.mk "Mno" "MNO" (.vInt 7)) .nil)) =
      .ok (some (.cons (.mk "Mno" "MNO" (.vInt 0)) .nil), none) ∧
    UnmarshalEnvironment (fun k => if k = "MNO" then ("-1234", true) else ("", false))
      (some (.cons (.mk "Mno" "MNO" (.vInt 7)) .nil)) =
      .ok (some (.cons (.mk "Mno" "MNO" (.vInt (-1234))) .nil), none) ∧
    UnmarshalEnvironment (fun k => if k = "MNO" then ("abc", true) else ("", false))
      (some (.cons (.mk "Mno" "MNO" (.vInt 7)) .nil)) =
      .ok (some (.cons (.mk "Mno" "MNO" (.vInt 0)) .nil),
        some "strconv.Atoi: parsing abc: invalid syntax") :=
  ⟨rfl, rfl, rfl⟩

/-- C6: for every boolean field whose tag carries the `anyvaltrue`
option, a present key — whatever its value, including the empty string
— sets the field to `true` (and leaves the deferred error untouched),
and an absent key leaves the field at its pre-call value. -/
theorem anyValTrueSemantics (lk : LookupEnvironmentFunc) (err : Option String)
    (name tag : String) (b : Bool)
    (hany : (parseStateVar tag).AnyValTrue = true) :
    ((lk (parseStateVar tag).EnvironmentVariable).2 = true →
      unmarshalField lk err (.mk name tag (.vBool b)) =
        .ok (.mk name tag (.vBool true), err)) ∧
    ((lk (parseStateVar tag).EnvironmentVariable).2 = false →
      unmarshalField lk err (.mk name tag (.vBool b)) =
        .ok (.mk name tag (.vBool b), err)) := by
  constructor
  · intro hp
    simp [unmarshalField, hp, hany]
  · intro hp
    simp [unmarshalField, hp]

/-- C6 witness: the `Jkl` field of the test schema, key present with
the empty string (set to true), and key absent (unchanged). -/
theorem anyValTrueSemantics_witness :
    unmarshalField (fun k => if k = "JKL" then ("", true) else ("", false)) none
      (.mk "Jkl" "JKL,anyvaltrue" (.vBool false)) =
      .ok (.mk "Jkl" "JKL,anyvaltrue" (.vBool true), none) ∧
    unmarshalField FakeEmptyEnvironment none (.mk "Jkl" "JKL,anyvaltrue" (.vBool false)) =
      .ok (.mk "Jkl" "JKL,anyvaltrue" (.vBool false), none) :=
  ⟨(anyValTrueSemantics (fun k => if k = "JKL" then ("", true) else ("", false))
      none "Jkl" "JKL,anyvaltrue" false rfl).1 rfl,
   (anyValTrueSemantics FakeEmptyEnvironment none "Jkl" "JKL,anyvaltrue" false rfl).2 rfl⟩

/-- C8: for every string-slice field, a present key with a non-empty
value assigns the comma-split parts of the value (`a,b,c` splits to
`[a, b, c]`), and a present key with an empty value leaves the field
at its pre-call value — no empty sequence is assigned. -/
theorem stringSliceFieldSemantics (lk : LookupEnvironmentFunc) (err : Option String)
    (name tag : String) (xs : List String) :
    ((lk (parseStateVar tag).EnvironmentVariable).2 = true →
      (lk (parseStateVar tag).EnvironmentVariable).1.length ≠ 0 →
      unmarshalField lk err (.mk name tag (.vStringSlice xs)) =
        .ok (.mk name tag (.vStringSlice
          (stringsSplitComma (lk (parseStateVar tag).EnvironmentVariable).1)), err)) ∧
    stringsSplitComma "a,b,c" = ["a", "b", "c"] ∧
    (lk (parseStateVar tag).EnvironmentVariable = ("", true) →
      unmarshalField lk err (.mk name tag (.vStringSlice xs)) =
        .ok (.mk name tag (.vStringSlice xs), err)) := by
  refine ⟨?_, rfl, ?_⟩
  · intro hp hl
    simp [unmarshalField, hp, hl]
  · intro hp
    simp [unmarshalField, hp]

/-- C8 witness: the `Pqr` field of the test schema bound from
`a,b,c`, and left unchanged when the key is present but empty. -/
theorem stringSliceFieldSemantics_witness :
    unmarshalField (fun k => if k = "PQR" then ("a,b,c", true) else ("", false)) none
      (.mk "Pqr" "PQR" (.vStringSlice [])) =
      .ok (.mk "Pqr" "PQR" (.vStringSlice ["a", "b", "c"]), none) ∧
    unmarshalField (fun k => if k = "PQR" then ("", true) else ("", false)) none
      (.mk "Pqr" "PQR" (.vStringSlice ["keep"])) =
      .ok (.mk "Pqr" "PQR" (.vStringSlice ["keep"]), none) :=
  ⟨(stringSliceFieldSemantics (fun k => if k = "PQR" then ("a,b,c", true) else ("", false))
      none "Pqr" "PQR" []).1 rfl (by decide),
   (stringSliceFieldSemantics (fun k => if k = "PQR" then ("", true) else ("", false))
      none "Pqr" "PQR" ["keep"]).2.2 rfl⟩

/-- C2 counterexample: the bool conversion of the first field fails on
the bad literal `xtrue`, but the int conversion of the second field
then succeeds and — because every executed parse assigns the single
`err` variable — overwrites the stored error with nil, so the call
returns a nil error although a conversion failed during the walk.
This falsifies the claim that once some conversion has failed the call
returns a non-nil error regardless of later fields. -/
theorem failedThenSuccessfulConversionReturnsNil_cex :
    UnmarshalEnvironment
      (fun k => if k = "GHI" then ("xtrue", true)
        else if k = "MNO" then ("5", true) else ("", false))
      (some (.cons (.mk "Ghi" "GHI" (.vBool false))
        (.cons (.mk "Mno" "MNO" (.vInt 0)) .nil))) =
    .ok (some (.cons (.mk "Ghi" "GHI" (.vBool false))
      (.cons (.mk "Mno" "MNO" (.vInt 5)) .nil)), none) :=
  rfl

/-- C2 (amended): the call returns the value of the single `err`
variable after the walk.  First conjunct: when every present key
converts successfully (and no pointer-kind field has a present key),
the call returns a nil error.  Second conjunct: an executed successful
bool parse stores nil into `err` whatever `err` held before — so an
earlier conversion error is overwritten by a later successful parse,
and a failed conversion guarantees a non-nil return only when no
later fallible parse succeeds. -/
theorem lastExecutedParseErrorSemantics :
    (∀ (lk : LookupEnvironmentFunc) (fs : Fields), fieldsWalkOk lk fs = true →
      ∃ fs2, UnmarshalEnvironment lk (some fs) = .ok (some fs2, none)) ∧
    (∀ (lk : LookupEnvironmentFunc) (err : Option String) (name tag : String) (b : Bool),
      (lk (parseStateVar tag).EnvironmentVariable).2 = true →
      (parseStateVar tag).AnyValTrue = false →
      (lk (parseStateVar tag).EnvironmentVariable).1.length ≠ 0 →
      (parseBoolGo (lk (parseStateVar tag).EnvironmentVariable).1).2 = none →
      unmarshalField lk err (.mk name tag (.vBool b)) =
        .ok (.mk name tag
          (.vBool (parseBoolGo (lk (parseStateVar tag).EnvironmentVariable).1).1), none)) := by
  constructor
  · intro lk fs h
    obtain ⟨fs2, hfs⟩ := unmarshalFields_walkOk lk fs h
    exact ⟨fs2, by simp [UnmarshalEnvironment, hfs]⟩
  · intro lk err name tag b hp ha hl hok
    simp [unmarshalField, hp, ha, hl, hok]

/-- C2 witness: an all-successful walk over the test schema returns a
nil error, and a successful bool parse of `true` overwrites a
previously stored error with nil. -/
theorem lastExecutedParseErrorSemantics_witness :
    (∃ fs2, UnmarshalEnvironment
      (fun k => if k = "ABC" then ("abcdef", true)
        else if k = "MNO" then ("1234", true) else ("", false))
      (some (.cons (.mk "Abc" "ABC" (.vString ""))
        (.cons (.mk "Mno" "MNO" (.vInt 0)) .nil))) = .ok (some fs2, none)) ∧
    unmarshalField (fun k => if k = "GHI" then ("true", true) else ("", false))
      (some "earlier conversion error")
      (.mk "Ghi" "GHI" (.vBool false)) =
      .ok (.mk "Ghi" "GHI" (.vBool true), none) :=
  ⟨lastExecutedParseErrorSemantics.1
      (fun k => if k = "ABC" then ("abcdef", true)
        else if k = "MNO" then ("1234", true) else ("", false))
      (.cons (.mk "Abc" "ABC" (.vString ""))
        (.cons (.mk "Mno" "MNO" (.vInt 0)) .nil)) rfl,
   lastExecutedParseErrorSemantics.2
      (fun k => if k = "GHI" then ("true", true) else ("", false))
      (some "earlier conversion error") "Ghi" "GHI" false rfl rfl (by decide) rfl⟩

/-- C3 counterexample: a field with no annotation (empty `environ` tag)
is NOT skipped.  The lookup function is queried with the empty-string
key; with a lookup that reports every key — including `""` — present
with value `x`, the unannotated string field preset to `orig` is
overwritten with `x`.  This falsifies both parts of the claim: the
lookup is consulted, and the field changes. -/
theorem unannotatedFieldProcessed_cex :
    UnmarshalEnvironment (fun _ => ("x", true))
      (some (.cons (.mk "Abc" "" (.vString "orig")) .nil)) =
    .ok (some (.cons (.mk "Abc" "" (.vString "x")) .nil), none) :=
  rfl

/-- C3 (amended): a field with no annotation is looked up under the
empty-string key rather than skipped; whenever the lookup reports the
empty-string key absent (as the real environment does), a field of one
of the four convertible kinds is left at its pre-call value with the
deferred error untouched. -/
theorem unannotatedFieldUnchangedWhenEmptyKeyAbsent (lk : LookupEnvironmentFunc)
    (err : Option String) (name : String) (v : Value)
    (habs : (lk "").2 = false) (hleaf : isLeafValue v = true) :
    unmarshalField lk err (.mk name "" v) = .ok (.mk name "" v, err) := by
  have hkey : (parseStateVar "").EnvironmentVariable = "" := rfl
  cases v with
  | vBool b => simp [unmarshalField, hkey, habs]
  | vString str => simp [unmarshalField, hkey, habs]
  | vStringSlice xs => simp [unmarshalField, hkey, habs]
  | vInt n => simp [unmarshalField, hkey, habs]
  | vPtrNil => simp [isLeafValue] at hleaf
  | vPtr fs => simp [isLeafValue] at hleaf

/-- C3 witness: an unannotated string field under the fake empty
environment (which reports every key, including `""`, absent) keeps
its value. -/
theorem unannotatedFieldUnchangedWhenEmptyKeyAbsent_witness :
    unmarshalField FakeEmptyEnvironment none (.mk "Extra" "" (.vString "orig")) =
      .ok (.mk "Extra" "" (.vString "orig"), none) :=
  unannotatedFieldUnchangedWhenEmptyKeyAbsent FakeEmptyEnvironment none "Extra"
    (.vString "orig") rfl rfl

/-- C7: for every lookup function that reports every queried key
absent and every record — nested records reachable through pointer
fields included — UnmarshalEnvironment returns the record with every
field at its pre-call value and a nil error. -/
theorem absentLookupLeavesRecordUnchanged (lk : LookupEnvironmentFunc)
    (habs : ∀ k, (lk k).2 = false) (fs : Fields) :
    UnmarshalEnvironment lk (some fs) = .ok (some fs, none) := by
  simp [UnmarshalEnvironment, unmarshalFields_absent lk habs none fs]

/-- C7 witness: `FakeEmptyEnvironment` from fake.go reports every key
absent; a record with string, bool, int fields and a pointer to a
nested record comes back exactly as it went in, with a nil error. -/
theorem absentLookupLeavesRecordUnchanged_witness :
    UnmarshalEnvironment FakeEmptyEnvironment
      (some (.cons (.mk "Abc" "ABC" (.vString "x"))
        (.cons (.mk "Ghi" "GHI" (.vBool true))
        (.cons (.mk "Sub" "SUB" (.vPtr (.cons (.mk "Mno" "MNO" (.vInt 5)) .nil))) .nil)))) =
    .ok (some (.cons (.mk "Abc" "ABC" (.vString "x"))
      (.cons (.mk "Ghi" "GHI" (.vBool true))
      (.cons (.mk "Sub" "SUB" (.vPtr (.cons (.mk "Mno" "MNO" (.vInt 5)) .nil))) .nil))), none) :=
  absentLookupLeavesRecordUnchanged FakeEmptyEnvironment (fun _ => rfl) _

/-- C9: ToString is deterministic (equal records render to equal
strings); a string field whose tag carries `redact` renders as the
eight-character mask `********` when its value is non-empty and as the
empty string when its value is empty; a field whose tag does not carry
`redact` renders its literal `%v` value; and the rendering is the
brace-wrapped concatenation of the per-field `Name:Value` entries in
declaration order. -/
theorem toStringRenderingSemantics :
    (∀ es1 es2 : Fields, es1 = es2 → ToString es1 = ToString es2) ∧
    (∀ name tag stri, (parseStateVar tag).Redact = true → stri.length > 0 →
      renderField (.mk name tag (.vString stri)) = name ++ ":" ++ "********" ++ " ") ∧
    (∀ name tag, (parseStateVar tag).Redact = true →
      renderField (.mk name tag (.vString "")) = name ++ ":" ++ "" ++ " ") ∧
    (∀ name tag v, (parseStateVar tag).Redact = false →
      renderField (.mk name tag v) = name ++ ":" ++ formatValue v ++ " ") ∧
    (∀ f rest, ToString (.cons f rest) =
      "\x7b " ++ (renderField f ++ renderFields rest) ++ "\x7d") ∧
    "********".length = 8 := by
  refine ⟨fun es1 es2 h => by rw [h], ?_, ?_, ?_, fun f rest => rfl, rfl⟩
  · intro name tag stri hr hs
    simp [renderField, hr, hs]
  · intro name tag hr
    simp [renderField, hr]
  · intro name tag v hr
    simp [renderField, hr]

/-- C9 witness: the `Def` field of the test schema with value
`secretz` renders masked, empty renders empty, and the unredacted
`Abc` field renders its literal value. -/
theorem toStringRenderingSemantics_witness :
    ToString (.cons (.mk "Abc" "ABC" (.vString "x")) .nil) =
      ToString (.cons (.mk "Abc" "ABC" (.vString "x")) .nil) ∧
    renderField (.mk "Def" "DEF,redact" (.vString "secretz")) =
      "Def" ++ ":" ++ "********" ++ " " ∧
    renderField (.mk "Def" "DEF,redact" (.vString "")) = "Def" ++ ":" ++ "" ++ " " ∧
    renderField (.mk "Abc" "ABC" (.vString "foo")) =
      "Abc" ++ ":" ++ formatValue (.vString "foo") ++ " " :=
  ⟨toStringRenderingSemantics.1 _ _ rfl,
   toStringRenderingSemantics.2.1 "Def" "DEF,redact" "secretz" rfl (by decide),
   toStringRenderingSemantics.2.2.1 "Def" "DEF,redact" rfl,
   toStringRenderingSemantics.2.2.2.1 "Abc" "ABC" (.vString "foo") rfl⟩

/-- C10: the error result of the recursive UnmarshalEnvironment call
on a pointer field is discarded.  First conjunct: the recursive call
on a nil pointer reports the decode-of-nil error.  Second conjunct: a
nil-pointer field whose own key is absent leaves the deferred `err`
unchanged — the decode-of-nil error never reaches it.  Third conjunct:
for a non-nil pointer field whose own key is absent, whatever error
`nerr` the nested walk produced, the outer `err` passes through
unchanged — so the outer call can return nil despite a nested
conversion failure.  Fourth conjunct: a concrete top-level call whose
nested int conversion fails still returns a nil error. -/
theorem nestedRecordErrorDiscarded (lk : LookupEnvironmentFunc) (err : Option String)
    (name tag : String) (fs fs2 : Fields) (nerr : Option String) :
    (UnmarshalEnvironment lk none = .ok (none, some decodeOfNilMsg)) ∧
    ((lk (parseStateVar tag).EnvironmentVariable).2 = false →
      unmarshalField lk err (.mk name tag .vPtrNil) = .ok (.mk name tag .vPtrNil, err)) ∧
    ((lk (parseStateVar tag).EnvironmentVariable).2 = false →
      unmarshalFields lk none fs = .ok (fs2, nerr) →
      unmarshalField lk err (.mk name tag (.vPtr fs)) =
        .ok (.mk name tag (.vPtr fs2), err)) ∧
    UnmarshalEnvironment (fun k => if k = "NEST" then ("abc", true) else ("", false))
      (some (.cons (.mk "Sub" ""
        (.vPtr (.cons (.mk "Mno" "NEST" (.vInt 7)) .nil))) .nil)) =
      .ok (some (.cons (.mk "Sub" ""
        (.vPtr (.cons (.mk "Mno" "NEST" (.vInt 0)) .nil))) .nil), none) := by
  refine ⟨rfl, ?_, ?_, rfl⟩
  · intro hp
    simp [unmarshalField, hp]
  · intro hp hw
    simp [unmarshalField, hp, hw]

/-- C10 witness: a pointer field whose nested int field fails to
convert — the nested error is dropped and the outer deferred error
(nil here) survives; the nil-pointer case likewise leaves a previously
stored outer error in place. -/
theorem nestedRecordErrorDiscarded_witness :
    unmarshalField (fun k => if k = "NEST" then ("abc", true) else ("", false)) none
      (.mk "Sub" "" (.vPtr (.cons (.mk "Mno" "NEST" (.vInt 7)) .nil))) =
      .ok (.mk "Sub" "" (.vPtr (.cons (.mk "Mno" "NEST" (.vInt 0)) .nil)), none) ∧
    unmarshalField FakeEmptyEnvironment (some "outer error") (.mk "Sub" "SUB" .vPtrNil) =
      .ok (.mk "Sub" "SUB" .vPtrNil, some "outer error") :=
  ⟨(nestedRecordErrorDiscarded (fun k => if k = "NEST" then ("abc", true) else ("", false))
      none "Sub" "" (.cons (.mk "Mno" "NEST" (.vInt 7)) .nil)
      (.cons (.mk "Mno" "NEST" (.vInt 0)) .nil)
      (some "strconv.Atoi: parsing abc: invalid syntax")).2.2.1 rfl rfl,
   (nestedRecordErrorDiscarded FakeEmptyEnvironment (some "outer error") "Sub" "SUB"
      .nil .nil none).2.1 rfl⟩

end Environ
